import Mathlib

/-!
Verification development for `grstools` (`src/grstools/utils.py`).

We shallowly embed the two operations the specification covers:

* `parse_grs_file` — schema projection, allele-case normalization and
  threshold filtering of a GRS variant table.  The pandas dataframe obtained
  from `pd.read_csv(filename, sep=sep, dtype=COL_TYPES)` is modelled as a
  `DataFrame`: a header list together with a list of rows of typed cells
  (`Value`), the per-column `dtype` coercion having already produced the
  typed cells (`WellTyped` states that the coercion succeeded).  The
  `KeyError` raised by the projection `df[cols]` is the error the spec calls
  SchemaViolation.  Log emission (`logger.info`, gated on the `log` flag) is
  returned as a list of messages next to the result.

* `regress` — orchestration of a regression run.  The external collaborators
  (`TextPhenotypes`, `execute_formula`) are opaque: the two loads, the merge
  and the engine dispatch are recorded as events in a trace, in the order the
  source performs them, and the engine itself is a parameter delivering the
  list of result groups that `ResultsMemory` would have collected.  The
  `ValueError` / `NotImplementedError` raises of the source are modelled with
  their exact messages; the spec names them ModelConfigurationError,
  UnsupportedTestError and UnsupportedConfigurationError respectively.
-/

/-- A typed cell of the dataframe, as produced by the `dtype=COL_TYPES`
coercion of `pd.read_csv`: a string, an integer or a float (floats are
modelled as rationals). -/
inductive Value where
  | vstr (s : String)
  | vint (n : Int)
  | vfloat (q : Rat)
deriving DecidableEq, Repr

/-- The declared column type of `COL_TYPES` (`str`, `int`, `float`). -/
inductive ColType where
  | tstr
  | tint
  | tfloat
deriving DecidableEq, Repr

/-- Does a cell carry the declared column type? -/
def Value.hasType : Value → ColType → Bool
  | .vstr _, .tstr => true
  | .vint _, .tint => true
  | .vfloat _, .tfloat => true
  | _, _ => false

/-- Numeric reading of a cell, used by the threshold comparisons
(`df["p-value"] <= p_threshold`, `df["maf"] >= maf_threshold`); on
well-typed frames these cells are always `vfloat`. -/
def Value.asRat : Value → Rat
  | .vstr _ => 0
  | .vint n => (n : Rat)
  | .vfloat q => q

/-- Model of Python `str.upper()` on the ASCII allele strings: uppercase
every character. -/
def pyUpper (s : String) : String :=
  String.mk (s.data.map Char.toUpper)

/-- `df["reference"].str.upper()` applied to one cell: uppercase a string
cell, leave any other cell unchanged. -/
def Value.upper : Value → Value
  | .vstr s => .vstr (pyUpper s)
  | v => v

/-- A pandas dataframe: column names plus rows of cells (row `i`, column
`headers[j]` is `rows[i][j]`). -/
structure DataFrame where
  headers : List String
  rows : List (List Value)
deriving DecidableEq, Repr

/-- `COL_TYPES` of the source: the mandatory columns with their declared
types, in declaration order. -/
def COL_TYPES : List (String × ColType) :=
  [("name", .tstr), ("chrom", .tstr), ("pos", .tint), ("reference", .tstr),
   ("risk", .tstr), ("p-value", .tfloat), ("effect", .tfloat)]

/-- Cell of row `r` in the column named `c` (pandas column access). -/
def getCell (headers : List String) (r : List Value) (c : String) : Value :=
  match headers.findIdx? (fun h => h == c) with
  | some i => r.getD i (Value.vstr "")
  | none => Value.vstr ""

/-- The column list `cols` built by `parse_grs_file`: the `COL_TYPES` keys,
with `maf` appended when the raw frame has a `maf` column. -/
def projCols (df : DataFrame) : List String :=
  COL_TYPES.map Prod.fst ++ (if df.headers.contains "maf" then ["maf"] else [])

/-- One row of the projection `df[cols]`. -/
def projRow (headers cols : List String) (r : List Value) : List Value :=
  cols.map (fun c => getCell headers r c)

/-- The rows of the projection `df[cols]` (defined whether or not the
projection would raise; `parse_grs_file` only uses it after the `KeyError`
check). -/
def projectedRows (df : DataFrame) : List (List Value) :=
  df.rows.map (projRow df.headers (projCols df))

/-- The column assignment `df[c] = df[c].str.upper()` on one row: replace
the cell in column `c` by its uppercased form. -/
def rowSetUpper (headers : List String) (c : String) (r : List Value) : List Value :=
  match headers.findIdx? (fun h => h == c) with
  | some i => r.set i (Value.upper (r.getD i (Value.vstr "")))
  | none => r

/-- The column assignment `df[c] = df[c].str.upper()` on the whole frame. -/
def setColUpper (headers : List String) (c : String) (rows : List (List Value)) :
    List (List Value) :=
  rows.map (rowSetUpper headers c)

/-- The projected rows after both allele columns have been uppercased
(`reference` first, then `risk`, as in the source). -/
def normalizedRows (df : DataFrame) : List (List Value) :=
  setColUpper (projCols df) "risk"
    (setColUpper (projCols df) "reference" (projectedRows df))

/-- Row-level reading of the normalization stage: project one raw row onto
the selected columns and uppercase its two allele cells (`normalizedRows`
is the pointwise image of this map). -/
def normRowFun (df : DataFrame) (r0 : List Value) : List Value :=
  rowSetUpper (projCols df) "risk"
    (rowSetUpper (projCols df) "reference" (projRow df.headers (projCols df) r0))

/-- The row predicate of `df.loc[df["p-value"] <= p_threshold, :]`. -/
def keepP (headers : List String) (p_threshold : Rat) (r : List Value) : Bool :=
  decide ((getCell headers r "p-value").asRat ≤ p_threshold)

/-- The row predicate of `df.loc[df["maf"] >= maf_threshold, :]`. -/
def keepMaf (headers : List String) (maf_threshold : Rat) (r : List Value) : Bool :=
  decide (maf_threshold ≤ (getCell headers r "maf").asRat)

/-- The frame is the result of a successful `dtype=COL_TYPES` coercion:
every mandatory column that is present holds cells of its declared type,
and a `maf` column, when present, holds floats. -/
def cellTyped (headers : List String) (r : List Value) (c : String) (t : ColType) : Bool :=
  match headers.findIdx? (fun h => h == c) with
  | some i => (r.getD i (Value.vstr "")).hasType t
  | none => true

/-- Well-typedness of a raw frame (successful column coercion). -/
def WellTyped (df : DataFrame) : Bool :=
  df.rows.all fun r =>
    COL_TYPES.all (fun ct => cellTyped df.headers r ct.1 ct.2) &&
      cellTyped df.headers r "maf" ColType.tfloat

/-- Failure of `parse_grs_file`: the `KeyError` raised by `df[cols]` when a
mandatory column is absent (the spec's SchemaViolation). -/
inductive ParseErr where
  | keyError
deriving DecidableEq, Repr

/-- The `logger.info` message announcing the p-value threshold. -/
def pLogMsg (p_threshold : Rat) : String :=
  "Applying p-value threshold (p <= " ++ toString p_threshold ++ ")."

/-- The `logger.info` message announcing the MAF threshold. -/
def mafLogMsg (maf_threshold : Rat) : String :=
  "Applying MAF threshold (MAF >= " ++ toString maf_threshold ++ ")."

/-- `parse_grs_file(filename, p_threshold, maf_threshold, sep, log)` of the
source, starting from the coerced frame `df` that `pd.read_csv` produced:
project onto the mandatory columns plus optional `maf` (`KeyError` when a
mandatory column is missing), uppercase `reference` and `risk`, filter on
the p-value threshold, then on the MAF threshold when `maf` is present.
Returns the emitted log messages next to the result. -/
def parse_grs_file (df : DataFrame) (p_threshold maf_threshold : Rat) (log : Bool) :
    List String × Except ParseErr DataFrame :=
  if (projCols df).all (fun c => df.headers.contains c) then
    let headers := projCols df
    let rows1 := normalizedRows df
    let logs1 := if log then [pLogMsg p_threshold] else []
    let rows2 := rows1.filter (keepP headers p_threshold)
    if headers.contains "maf" then
      (logs1 ++ (if log then [mafLogMsg maf_threshold] else []),
       .ok ⟨headers, rows2.filter (keepMaf headers maf_threshold)⟩)
    else
      (logs1, .ok ⟨headers, rows2⟩)
  else
    ([], .error .keyError)

/-- Observable side effects of `regress`, in source order: reading the GRS
file, reading the phenotype file, `phenotypes.merge(grs)`, and the
`execute_formula` dispatch to the statistical engine. -/
inductive Event where
  | loadGrs
  | loadPheno
  | mergeTables
  | executeTest
deriving DecidableEq, Repr

/-- An exception raised by `regress`: a `ValueError` or a
`NotImplementedError`, carrying its message. -/
inductive RegressErr where
  | valueError (msg : String)
  | notImplementedError (msg : String)
deriving DecidableEq, Repr

/-- The `ValueError` raised when `grs` is not a substring of the model
(the spec's ModelConfigurationError). -/
def modelConfigurationError : RegressErr :=
  .valueError ("The grs should be included in the regression model. For example, " ++
    "'phenotype ~ grs + age' would be a valid model, given that " ++
    "'phenotype' and 'age' are defined in the phenotypes file.")

/-- The `ValueError` raised when the test is neither linear nor logistic
(the spec's UnsupportedTestError). -/
def unsupportedTestError : RegressErr :=
  .valueError "Statistical test should be logistic or linear."

/-- The `NotImplementedError` raised when the engine delivered a number of
result groups different from one (the spec's UnsupportedConfigurationError). -/
def unsupportedConfigurationError : RegressErr :=
  .notImplementedError "Only simple, single-group regression models are supported."

/-- The per-term statistics dict of one result group
(`results[0]["grs"]` / `results[0]["intercept"]`). -/
structure TermStats where
  coef : Rat
  lower_ci : Rat
  upper_ci : Rat
  p_value : Rat
deriving DecidableEq, Repr

/-- One result group collected by the `ResultsMemory` subscriber: the `grs`
and `intercept` term entries and the model-level adjusted R²
(`results[0]["MODEL"]["r_squared_adj"]`). -/
structure ResultGroup where
  grs : TermStats
  intercept : TermStats
  model_r_squared_adj : Rat
deriving DecidableEq, Repr

/-- A value of the output dict of `regress`: a number, or the `CI` pair. -/
inductive OutVal where
  | num (q : Rat)
  | pair (lo hi : Rat)
deriving DecidableEq, Repr

/-- Does `hay` start with `needle`? (character lists) -/
def listStartsWith : List Char → List Char → Bool
  | _, [] => true
  | [], _ :: _ => false
  | a :: hay, b :: needle => a == b && listStartsWith hay needle

/-- Does `hay` contain `needle` as a contiguous subsequence? -/
def listContainsSeq (needle : List Char) : List Char → Bool
  | [] => listStartsWith [] needle
  | a :: hay => listStartsWith (a :: hay) needle || listContainsSeq needle hay

/-- Python substring containment `needle in hay`. -/
def strContainsSub (hay needle : String) : Bool :=
  listContainsSeq needle.data hay.data

/-- `regress(model, test, grs_filename, phenotypes_filename, ...)` of the
source.  The file contents and the statistical engine are opaque
collaborators: `engine model test` stands for the result-group list that
`execute_formula` makes the `ResultsMemory` subscriber collect.  The first
component is the trace of observable effects in the order the source
performs them; the second is the raised exception or the returned dict
(as an insertion-ordered key/value list). -/
def regress (model test : String) (engine : String → String → List ResultGroup) :
    List Event × Except RegressErr (List (String × OutVal)) :=
  let events : List Event := [.loadGrs, .loadPheno, .mergeTables]
  if strContainsSub model "grs" then
    if test == "linear" || test == "logistic" then
      let events := events ++ [Event.executeTest]
      match engine model test with
      | [res] =>
        let out : List (String × OutVal) :=
          [("beta", .num res.grs.coef),
           ("CI", .pair res.grs.lower_ci res.grs.upper_ci),
           ("p-value", .num res.grs.p_value)]
        let out := if test == "linear" then
            out ++ [("intercept", .num res.intercept.coef),
                    ("R2", .num res.model_r_squared_adj)]
          else out
        (events, .ok out)
      | _ => (events, .error unsupportedConfigurationError)
    else
      (events, .error unsupportedTestError)
  else
    (events, .error modelConfigurationError)

-- Decidable equality for results carried in `Except`, so that concrete
-- runs can be checked by evaluation.
deriving instance DecidableEq for Except

/-- A sample coerced frame: mixed-case alleles, a `maf` column and an extra
unknown column; at thresholds `p ≤ 1` and `maf ≥ 0` the first row passes
and the second fails the p-value bound. -/
def sampleDF : DataFrame :=
  ⟨["name", "chrom", "pos", "reference", "risk", "p-value", "effect", "maf", "extra"],
   [[.vstr "rs1", .vstr "1", .vint 100, .vstr "a", .vstr "t", .vfloat 0,
     .vfloat 1, .vfloat 1, .vstr "x"],
    [.vstr "rs2", .vstr "2", .vint 200, .vstr "C", .vstr "g", .vfloat 2,
     .vfloat 2, .vfloat 1, .vstr "y"]]⟩

/-- What `parse_grs_file` returns on `sampleDF` at thresholds 1, 0. -/
def sampleOut : DataFrame :=
  ⟨["name", "chrom", "pos", "reference", "risk", "p-value", "effect", "maf"],
   [[.vstr "rs1", .vstr "1", .vint 100, .vstr "A", .vstr "T", .vfloat 0,
     .vfloat 1, .vfloat 1]]⟩

/-- The sole surviving (projected and normalized) row of `sampleOut`. -/
def sampleRow : List Value :=
  [.vstr "rs1", .vstr "1", .vint 100, .vstr "A", .vstr "T", .vfloat 0,
   .vfloat 1, .vfloat 1]

/-- A sample frame missing the mandatory `effect` column. -/
def sampleDFNoEffect : DataFrame :=
  ⟨["name", "chrom", "pos", "reference", "risk", "p-value", "maf"],
   [[.vstr "rs1", .vstr "1", .vint 100, .vstr "a", .vstr "t", .vfloat 0,
     .vfloat 1]]⟩

/-- A sample frame without `maf` whose single variant row appears twice. -/
def sampleDFDup : DataFrame :=
  ⟨["name", "chrom", "pos", "reference", "risk", "p-value", "effect"],
   [[.vstr "rs1", .vstr "1", .vint 100, .vstr "a", .vstr "t", .vfloat 0, .vfloat 1],
    [.vstr "rs1", .vstr "1", .vint 100, .vstr "a", .vstr "t", .vfloat 0, .vfloat 1]]⟩

/-- What `parse_grs_file` returns on `sampleDFDup` at thresholds 1, 0: both
duplicate rows survive. -/
def sampleDupOut : DataFrame :=
  ⟨["name", "chrom", "pos", "reference", "risk", "p-value", "effect"],
   [[.vstr "rs1", .vstr "1", .vint 100, .vstr "A", .vstr "T", .vfloat 0, .vfloat 1],
    [.vstr "rs1", .vstr "1", .vint 100, .vstr "A", .vstr "T", .vfloat 0, .vfloat 1]]⟩

/-- The normalized duplicate row of `sampleDupOut`. -/
def dupRow : List Value :=
  [.vstr "rs1", .vstr "1", .vint 100, .vstr "A", .vstr "T", .vfloat 0, .vfloat 1]

theorem utError_ne_mcError : unsupportedTestError ≠ modelConfigurationError := by
  decide

theorem ucError_ne_mcError : unsupportedConfigurationError ≠ modelConfigurationError := by
  decide

theorem ucError_ne_utError : unsupportedConfigurationError ≠ unsupportedTestError := by
  decide

/-- C1 (counterexample): on the concrete failing model "y ~ age" the run
that raises the model-configuration error has already loaded both tables
and merged them — the trace at failure is not empty. -/
theorem regress_checks_after_load_cex :
    regress "y ~ age" "linear" (fun _ _ => []) =
      ([Event.loadGrs, Event.loadPheno, Event.mergeTables],
        Except.error modelConfigurationError) ∧
      Event.loadGrs ∈ (regress "y ~ age" "linear" (fun _ _ => [])).1 := by
  constructor
  · rfl
  · decide

/-- C1 (amended): for every model not containing "grs" and any test,
`regress` fails with the model-configuration error before the statistical
engine executes, but after the GRS table, the phenotype table and the merge
have been performed. -/
theorem regress_model_check_before_execute (model test : String)
    (engine : String → String → List ResultGroup)
    (h : strContainsSub model "grs" = false) :
    regress model test engine =
      ([Event.loadGrs, Event.loadPheno, Event.mergeTables],
        Except.error modelConfigurationError) ∧
      Event.executeTest ∉ (regress model test engine).1 := by
  have h1 : regress model test engine =
      ([Event.loadGrs, Event.loadPheno, Event.mergeTables],
        Except.error modelConfigurationError) := by
    simp [regress, h]
  exact ⟨h1, by rw [h1]; decide⟩

theorem regress_model_check_before_execute_witness :
    strContainsSub "y ~ age" "grs" = false ∧
      regress "y ~ age" "logistic" (fun _ _ => []) =
        ([Event.loadGrs, Event.loadPheno, Event.mergeTables],
          Except.error modelConfigurationError) :=
  ⟨by decide,
   (regress_model_check_before_execute "y ~ age" "logistic" (fun _ _ => [])
      (by decide)).1⟩

/-- C10: the model check is plain substring containment — whenever "grs"
occurs anywhere in the model string, `regress` does not raise the
model-configuration error. -/
theorem regress_substr_no_model_error (model test : String)
    (engine : String → String → List ResultGroup)
    (h : strContainsSub model "grs" = true) :
    (regress model test engine).2 ≠ Except.error modelConfigurationError := by
  unfold regress
  rw [h]
  simp only [if_true]
  split
  · cases hE : engine model test with
    | nil => simpa [hE] using fun hc => ucError_ne_mcError hc
    | cons res rest =>
      cases rest with
      | nil => simp [hE]
      | cons r2 rest2 => simpa [hE] using fun hc => ucError_ne_mcError hc
  · simpa using fun hc => utError_ne_mcError hc

theorem regress_substr_no_model_error_witness :
    strContainsSub "y ~ agrsx" "grs" = true ∧
      (regress "y ~ agrsx" "poisson" (fun _ _ => [])).2 ≠
        Except.error modelConfigurationError :=
  ⟨by decide,
   regress_substr_no_model_error "y ~ agrsx" "poisson" (fun _ _ => []) (by decide)⟩

/-- C6: with "grs" in the model, any test outside {"linear", "logistic"}
makes `regress` fail with the unsupported-test error, while a test in that
set proceeds past the check: the engine dispatch happens and the
unsupported-test error is not raised. -/
theorem regress_test_kind_check (model test : String)
    (engine : String → String → List ResultGroup)
    (hm : strContainsSub model "grs" = true) :
    ((test ≠ "linear" ∧ test ≠ "logistic") →
        (regress model test engine).2 = Except.error unsupportedTestError) ∧
      ((test = "linear" ∨ test = "logistic") →
        Event.executeTest ∈ (regress model test engine).1 ∧
          (regress model test engine).2 ≠ Except.error unsupportedTestError) := by
  constructor
  · intro ⟨h1, h2⟩
    unfold regress
    rw [hm]
    have e1 : (test == "linear") = false := by simpa using h1
    have e2 : (test == "logistic") = false := by simpa using h2
    simp [e1, e2]
  · intro ht
    have htrue : (test == "linear" || test == "logistic") = true := by
      rcases ht with h | h <;> simp [h]
    unfold regress
    rw [hm]
    simp only [if_true, htrue]
    cases hE : engine model test with
    | nil =>
      refine ⟨by simp, ?_⟩
      simpa using fun hc => ucError_ne_utError hc
    | cons res rest =>
      cases rest with
      | nil => exact ⟨by simp, by simp⟩
      | cons r2 rest2 =>
        refine ⟨by simp, ?_⟩
        simpa using fun hc => ucError_ne_utError hc

theorem regress_test_kind_check_witness :
    strContainsSub "y ~ grs" "grs" = true ∧
      ("poisson" ≠ "linear" ∧ "poisson" ≠ "logistic") ∧
      (regress "y ~ grs" "poisson" (fun _ _ => [])).2 =
        Except.error unsupportedTestError :=
  ⟨by decide, ⟨by decide, by decide⟩,
   (regress_test_kind_check "y ~ grs" "poisson" (fun _ _ => []) (by decide)).1
     ⟨by decide, by decide⟩⟩

/-- C4: once the model and test checks pass, `regress` fails with the
single-group error exactly when the engine delivered a number of result
groups different from one, and returns a record exactly when it delivered
one group. -/
theorem regress_single_group_required (model test : String)
    (engine : String → String → List ResultGroup)
    (hm : strContainsSub model "grs" = true)
    (ht : test = "linear" ∨ test = "logistic") :
    ((engine model test).length ≠ 1 →
        (regress model test engine).2 = Except.error unsupportedConfigurationError) ∧
      ((engine model test).length = 1 →
        ∃ out, (regress model test engine).2 = Except.ok out) := by
  have htrue : (test == "linear" || test == "logistic") = true := by
    rcases ht with h | h <;> simp [h]
  unfold regress
  rw [hm]
  simp only [if_true, htrue]
  cases hE : engine model test with
  | nil => simp [hE]
  | cons res rest =>
    cases rest with
    | nil => simp [hE]
    | cons r2 rest2 => simp [hE]

theorem regress_single_group_required_witness :
    strContainsSub "y ~ grs" "grs" = true ∧
      (((fun _ _ => [] : String → String → List ResultGroup) "y ~ grs" "linear").length ≠ 1) ∧
      (regress "y ~ grs" "linear" (fun _ _ => [])).2 =
        Except.error unsupportedConfigurationError :=
  ⟨by decide, by decide,
   (regress_single_group_required "y ~ grs" "linear" (fun _ _ => [])
      (by decide) (Or.inl rfl)).1 (by decide)⟩

/-- C3: whenever `regress` succeeds, the engine delivered exactly one
result group, and the returned record holds exactly the keys `beta`, `CI`
(a pair of the lower and upper confidence bounds) and `p-value`, read from
the `grs` term of that sole group — plus `intercept` and `R2` exactly when
the test is linear, both absent when it is logistic. -/
theorem regress_result_record (model test : String)
    (engine : String → String → List ResultGroup) (out : List (String × OutVal))
    (h : (regress model test engine).2 = Except.ok out) :
    ∃ res : ResultGroup, engine model test = [res] ∧
      ((test = "linear" ∧
          out = [("beta", OutVal.num res.grs.coef),
                 ("CI", OutVal.pair res.grs.lower_ci res.grs.upper_ci),
                 ("p-value", OutVal.num res.grs.p_value),
                 ("intercept", OutVal.num res.intercept.coef),
                 ("R2", OutVal.num res.model_r_squared_adj)]) ∨
        (test = "logistic" ∧
          out = [("beta", OutVal.num res.grs.coef),
                 ("CI", OutVal.pair res.grs.lower_ci res.grs.upper_ci),
                 ("p-value", OutVal.num res.grs.p_value)])) := by
  unfold regress at h
  by_cases hm : strContainsSub model "grs"
  · rw [hm] at h
    simp only [if_true] at h
    by_cases ht : (test == "linear" || test == "logistic") = true
    · rw [if_pos ht] at h
      cases hE : engine model test with
      | nil => rw [hE] at h; simp at h
      | cons res rest =>
        cases rest with
        | nil =>
          rw [hE] at h
          refine ⟨res, rfl, ?_⟩
          by_cases hlin : (test == "linear") = true
          · left
            refine ⟨by simpa using hlin, ?_⟩
            simp only [hlin, if_true] at h
            simpa using h.symm
          · right
            have hlog : test = "logistic" := by
              rcases (by simpa using ht : test = "linear" ∨ test = "logistic") with h1 | h1
              · exact absurd (by simp [h1]) hlin
              · exact h1
            refine ⟨hlog, ?_⟩
            simp only [hlin] at h
            simpa using h.symm
        | cons r2 rest2 => rw [hE] at h; simp at h
    · rw [if_neg ht] at h
      simp at h
  · rw [if_neg (by simpa using hm)] at h
    simp at h

theorem regress_result_record_witness :
    (regress "y ~ grs" "linear"
        (fun _ _ => [⟨⟨1, 2, 3, 4⟩, ⟨5, 6, 7, 8⟩, 9⟩])).2 =
      Except.ok [("beta", OutVal.num 1), ("CI", OutVal.pair 2 3),
        ("p-value", OutVal.num 4), ("intercept", OutVal.num 5),
        ("R2", OutVal.num 9)] ∧
      ∃ res : ResultGroup,
        (fun _ _ => [⟨⟨1, 2, 3, 4⟩, ⟨5, 6, 7, 8⟩, 9⟩] :
            String → String → List ResultGroup) "y ~ grs" "linear" = [res] ∧
          (("linear" = "linear" ∧
            [("beta", OutVal.num 1), ("CI", OutVal.pair 2 3),
             ("p-value", OutVal.num 4), ("intercept", OutVal.num 5),
             ("R2", OutVal.num 9)] =
              [("beta", OutVal.num res.grs.coef),
               ("CI", OutVal.pair res.grs.lower_ci res.grs.upper_ci),
               ("p-value", OutVal.num res.grs.p_value),
               ("intercept", OutVal.num res.intercept.coef),
               ("R2", OutVal.num res.model_r_squared_adj)]) ∨
            ("linear" = "logistic" ∧
            [("beta", OutVal.num 1), ("CI", OutVal.pair 2 3),
             ("p-value", OutVal.num 4), ("intercept", OutVal.num 5),
             ("R2", OutVal.num 9)] =
              [("beta", OutVal.num res.grs.coef),
               ("CI", OutVal.pair res.grs.lower_ci res.grs.upper_ci),
               ("p-value", OutVal.num res.grs.p_value)])) :=
  ⟨rfl,
   regress_result_record "y ~ grs" "linear"
     (fun _ _ => [⟨⟨1, 2, 3, 4⟩, ⟨5, 6, 7, 8⟩, 9⟩]) _ rfl⟩

theorem toUpper_eq (c : Char) :
    c.toUpper = if 97 ≤ c.toNat ∧ c.toNat ≤ 122 then Char.ofNat (c.toNat - 32) else c := rfl

theorem charToUpper_idem (c : Char) : c.toUpper.toUpper = c.toUpper := by
  rw [toUpper_eq c]
  by_cases h : 97 ≤ c.toNat ∧ c.toNat ≤ 122
  · rw [if_pos h]
    obtain ⟨h1, h2⟩ := h
    have h3 : 65 ≤ c.toNat - 32 := by omega
    have h4 : c.toNat - 32 ≤ 90 := by omega
    generalize c.toNat - 32 = m at h3 h4
    interval_cases m <;> decide
  · rw [if_neg h]
    rw [toUpper_eq c, if_neg h]

theorem pyUpper_idem (s : String) : pyUpper (pyUpper s) = pyUpper s := by
  unfold pyUpper
  rw [show (String.mk (s.data.map Char.toUpper)).data = s.data.map Char.toUpper from rfl]
  rw [List.map_map]
  exact congrArg String.mk (List.map_congr_left fun a _ => charToUpper_idem a)

theorem value_upper_idem (v : Value) : v.upper.upper = v.upper := by
  cases v with
  | vstr s => simp [Value.upper, pyUpper_idem]
  | vint n => rfl
  | vfloat q => rfl

theorem projCols_maf (df : DataFrame) (h : df.headers.contains "maf" = true) :
    projCols df = COL_TYPES.map Prod.fst ++ ["maf"] := by
  simp only [projCols]
  rw [if_pos h]

theorem projCols_no_maf (df : DataFrame) (h : df.headers.contains "maf" = false) :
    projCols df = COL_TYPES.map Prod.fst := by
  simp only [projCols]
  rw [if_neg (fun hc : df.headers.contains "maf" = true => by
    rw [h] at hc
    exact Bool.false_ne_true hc)]
  simp

theorem projCols_contains_maf (df : DataFrame) :
    (projCols df).contains "maf" = df.headers.contains "maf" := by
  by_cases h : df.headers.contains "maf" = true
  · rw [projCols_maf df h, h]
    decide
  · have h' : df.headers.contains "maf" = false := by simpa using h
    rw [projCols_no_maf df h', h']
    decide

theorem projRow_maf (H : List String) (r0 : List Value) :
    projRow H (COL_TYPES.map Prod.fst ++ ["maf"]) r0 =
      [getCell H r0 "name", getCell H r0 "chrom", getCell H r0 "pos",
       getCell H r0 "reference", getCell H r0 "risk", getCell H r0 "p-value",
       getCell H r0 "effect", getCell H r0 "maf"] := rfl

theorem projRow_no_maf (H : List String) (r0 : List Value) :
    projRow H (COL_TYPES.map Prod.fst) r0 =
      [getCell H r0 "name", getCell H r0 "chrom", getCell H r0 "pos",
       getCell H r0 "reference", getCell H r0 "risk", getCell H r0 "p-value",
       getCell H r0 "effect"] := rfl

theorem rowSetUpper8_ref (a b c x y d e f : Value) :
    rowSetUpper (COL_TYPES.map Prod.fst ++ ["maf"]) "reference" [a, b, c, x, y, d, e, f] =
      [a, b, c, Value.upper x, y, d, e, f] := rfl

theorem rowSetUpper8_risk (a b c x y d e f : Value) :
    rowSetUpper (COL_TYPES.map Prod.fst ++ ["maf"]) "risk" [a, b, c, x, y, d, e, f] =
      [a, b, c, x, Value.upper y, d, e, f] := rfl

theorem rowSetUpper7_ref (a b c x y d e : Value) :
    rowSetUpper (COL_TYPES.map Prod.fst) "reference" [a, b, c, x, y, d, e] =
      [a, b, c, Value.upper x, y, d, e] := rfl

theorem rowSetUpper7_risk (a b c x y d e : Value) :
    rowSetUpper (COL_TYPES.map Prod.fst) "risk" [a, b, c, x, y, d, e] =
      [a, b, c, x, Value.upper y, d, e] := rfl

theorem getCell8_ref (a b c x y d e f : Value) :
    getCell (COL_TYPES.map Prod.fst ++ ["maf"]) [a, b, c, x, y, d, e, f] "reference" = x := rfl

theorem getCell8_risk (a b c x y d e f : Value) :
    getCell (COL_TYPES.map Prod.fst ++ ["maf"]) [a, b, c, x, y, d, e, f] "risk" = y := rfl

theorem getCell7_ref (a b c x y d e : Value) :
    getCell (COL_TYPES.map Prod.fst) [a, b, c, x, y, d, e] "reference" = x := rfl

theorem getCell7_risk (a b c x y d e : Value) :
    getCell (COL_TYPES.map Prod.fst) [a, b, c, x, y, d, e] "risk" = y := rfl

theorem normalizedRows_eq_map (df : DataFrame) :
    normalizedRows df = df.rows.map (normRowFun df) := by
  simp [normalizedRows, setColUpper, projectedRows, normRowFun, List.map_map]

theorem mem_normalizedRows (df : DataFrame) (r : List Value) :
    r ∈ normalizedRows df ↔ ∃ r0 ∈ df.rows, normRowFun df r0 = r := by
  rw [normalizedRows_eq_map]
  exact List.mem_map

theorem getCell_normRowFun_ref (df : DataFrame) (r0 : List Value) :
    getCell (projCols df) (normRowFun df r0) "reference" =
      Value.upper (getCell df.headers r0 "reference") := by
  unfold normRowFun
  by_cases hmaf : df.headers.contains "maf" = true
  · rw [projCols_maf df hmaf, projRow_maf, rowSetUpper8_ref, rowSetUpper8_risk, getCell8_ref]
  · rw [projCols_no_maf df (by simpa using hmaf), projRow_no_maf, rowSetUpper7_ref,
      rowSetUpper7_risk, getCell7_ref]

theorem getCell_normRowFun_risk (df : DataFrame) (r0 : List Value) :
    getCell (projCols df) (normRowFun df r0) "risk" =
      Value.upper (getCell df.headers r0 "risk") := by
  unfold normRowFun
  by_cases hmaf : df.headers.contains "maf" = true
  · rw [projCols_maf df hmaf, projRow_maf, rowSetUpper8_ref, rowSetUpper8_risk, getCell8_risk]
  · rw [projCols_no_maf df (by simpa using hmaf), projRow_no_maf, rowSetUpper7_ref,
      rowSetUpper7_risk, getCell7_risk]

theorem rowSetUpper_ref_fix (df : DataFrame) (r0 : List Value) :
    rowSetUpper (projCols df) "reference" (normRowFun df r0) = normRowFun df r0 := by
  unfold normRowFun
  by_cases hmaf : df.headers.contains "maf" = true
  · rw [projCols_maf df hmaf, projRow_maf, rowSetUpper8_ref, rowSetUpper8_risk,
      rowSetUpper8_ref, value_upper_idem]
  · rw [projCols_no_maf df (by simpa using hmaf), projRow_no_maf, rowSetUpper7_ref,
      rowSetUpper7_risk, rowSetUpper7_ref, value_upper_idem]

theorem rowSetUpper_risk_fix (df : DataFrame) (r0 : List Value) :
    rowSetUpper (projCols df) "risk" (normRowFun df r0) = normRowFun df r0 := by
  unfold normRowFun
  by_cases hmaf : df.headers.contains "maf" = true
  · rw [projCols_maf df hmaf, projRow_maf, rowSetUpper8_ref, rowSetUpper8_risk,
      rowSetUpper8_risk, value_upper_idem]
  · rw [projCols_no_maf df (by simpa using hmaf), projRow_no_maf, rowSetUpper7_ref,
      rowSetUpper7_risk, rowSetUpper7_risk, value_upper_idem]

theorem parse_ok_inv (df : DataFrame) (p m : Rat) (log : Bool) (out : DataFrame)
    (h : (parse_grs_file df p m log).2 = Except.ok out) :
    out.headers = projCols df ∧
      out.rows = if df.headers.contains "maf" = true then
          ((normalizedRows df).filter (keepP (projCols df) p)).filter
            (keepMaf (projCols df) m)
        else (normalizedRows df).filter (keepP (projCols df) p) := by
  simp only [parse_grs_file] at h
  split at h
  · split at h
    · rename_i hmaf
      injection h with h2
      subst h2
      refine ⟨rfl, ?_⟩
      rw [if_pos (by rw [← projCols_contains_maf df]; exact hmaf)]
    · rename_i hmaf
      injection h with h2
      subst h2
      refine ⟨rfl, ?_⟩
      rw [if_neg (by rw [← projCols_contains_maf df]; exact hmaf)]
  · simp at h

/-- C2: on a frame accepted by `parse_grs_file` (well-typed, parse
succeeded), a normalized row appears in the output exactly when its p-value
is at most `p_threshold` and, when a `maf` column is present, its maf is at
least `maf_threshold`; in particular every output row satisfies both
bounds. -/
theorem parse_threshold_iff (df : DataFrame) (p m : Rat) (log : Bool)
    (out : DataFrame) (r : List Value)
    (hwt : WellTyped df = true)
    (h : (parse_grs_file df p m log).2 = Except.ok out) :
    r ∈ out.rows ↔
      r ∈ normalizedRows df ∧ (getCell (projCols df) r "p-value").asRat ≤ p ∧
        (df.headers.contains "maf" = true →
          m ≤ (getCell (projCols df) r "maf").asRat) := by
  obtain ⟨hh, hr⟩ := parse_ok_inv df p m log out h
  by_cases hmaf : df.headers.contains "maf" = true
  · rw [hr, if_pos hmaf]
    simp only [List.mem_filter, keepP, keepMaf, decide_eq_true_eq]
    constructor
    · rintro ⟨⟨hmem, hp⟩, hm2⟩
      exact ⟨hmem, hp, fun _ => hm2⟩
    · rintro ⟨hmem, hp, himp⟩
      exact ⟨⟨hmem, hp⟩, himp hmaf⟩
  · rw [hr, if_neg hmaf]
    simp only [List.mem_filter, keepP, decide_eq_true_eq]
    constructor
    · rintro ⟨hmem, hp⟩
      exact ⟨hmem, hp, fun hc => absurd hc hmaf⟩
    · rintro ⟨hmem, hp, _⟩
      exact ⟨hmem, hp⟩

theorem parse_threshold_iff_witness :
    WellTyped sampleDF = true ∧
      (parse_grs_file sampleDF 1 0 false).2 = Except.ok sampleOut ∧
      (sampleRow ∈ sampleOut.rows ↔
        sampleRow ∈ normalizedRows sampleDF ∧
          (getCell (projCols sampleDF) sampleRow "p-value").asRat ≤ 1 ∧
          (sampleDF.headers.contains "maf" = true →
            0 ≤ (getCell (projCols sampleDF) sampleRow "maf").asRat)) :=
  ⟨by decide, by decide,
   parse_threshold_iff sampleDF 1 0 false sampleOut sampleRow (by decide) (by decide)⟩

/-- C9: the `log` flag only controls the emitted diagnostic messages; the
returned value (success or failure alike) is identical with and without
it. -/
theorem parse_log_no_behavioral_effect (df : DataFrame) (p m : Rat) :
    (parse_grs_file df p m true).2 = (parse_grs_file df p m false).2 := by
  simp only [parse_grs_file]
  by_cases hall : ((projCols df).all fun c => df.headers.contains c) = true
  · rw [if_pos hall, if_pos hall]
    by_cases hmaf : (projCols df).contains "maf" = true
    · rw [if_pos hmaf, if_pos hmaf]
    · rw [if_neg hmaf, if_neg hmaf]
  · rw [if_neg hall, if_neg hall]

/-- C5: when any of the seven mandatory columns is absent the whole call
fails with the `KeyError` (SchemaViolation) and no partial result exists;
when all mandatory columns are present the call succeeds, and every column
of the output is either mandatory or `maf`, so extra unknown columns are
dropped rather than being errors. -/
theorem parse_schema_violation (df : DataFrame) (p m : Rat) (log : Bool) :
    ((∃ c ∈ COL_TYPES.map Prod.fst, df.headers.contains c = false) →
        (parse_grs_file df p m log).2 = Except.error ParseErr.keyError) ∧
      ((∀ c ∈ COL_TYPES.map Prod.fst, df.headers.contains c = true) →
        ∃ out, (parse_grs_file df p m log).2 = Except.ok out) ∧
      (∀ out, (parse_grs_file df p m log).2 = Except.ok out →
        ∀ c, out.headers.contains c = true → c ∈ COL_TYPES.map Prod.fst ∨ c = "maf") := by
  refine ⟨?_, ?_, ?_⟩
  · rintro ⟨c, hcmem, hcfalse⟩
    have hno : ¬(((projCols df).all fun c => df.headers.contains c) = true) := by
      intro hall
      rw [List.all_eq_true] at hall
      have hcP : c ∈ projCols df := by
        unfold projCols
        exact List.mem_append_left _ hcmem
      have hc := hall c hcP
      rw [hcfalse] at hc
      exact Bool.false_ne_true hc
    unfold parse_grs_file
    rw [if_neg hno]
  · intro hmand
    have hall : ((projCols df).all fun c => df.headers.contains c) = true := by
      rw [List.all_eq_true]
      intro x hx
      unfold projCols at hx
      rcases List.mem_append.mp hx with h1 | h2
      · exact hmand x h1
      · by_cases hmaf : df.headers.contains "maf" = true
        · rw [if_pos hmaf] at h2
          have hxeq : x = "maf" := by simpa using h2
          rw [hxeq]
          exact hmaf
        · rw [if_neg hmaf] at h2
          simp at h2
    by_cases hmaf2 : (projCols df).contains "maf" = true
    · exact ⟨_, by simp only [parse_grs_file]; rw [if_pos hall, if_pos hmaf2]⟩
    · exact ⟨_, by simp only [parse_grs_file]; rw [if_pos hall, if_neg hmaf2]⟩
  · intro out hok c hc
    obtain ⟨hh, _⟩ := parse_ok_inv df p m log out hok
    rw [hh] at hc
    by_cases hmaf : df.headers.contains "maf" = true
    · rw [projCols_maf df hmaf] at hc
      rcases List.mem_append.mp (List.mem_of_elem_eq_true hc) with h1 | h2
      · exact Or.inl h1
      · exact Or.inr (by simpa using h2)
    · rw [projCols_no_maf df (by simpa using hmaf)] at hc
      exact Or.inl (List.mem_of_elem_eq_true hc)

theorem parse_schema_violation_witness :
    (∃ c ∈ COL_TYPES.map Prod.fst, sampleDFNoEffect.headers.contains c = false) ∧
      (parse_grs_file sampleDFNoEffect 1 0 false).2 = Except.error ParseErr.keyError :=
  ⟨⟨"effect", by decide, by decide⟩,
   (parse_schema_violation sampleDFNoEffect 1 0 false).1 ⟨"effect", by decide, by decide⟩⟩

/-- C7: every output row carries the uppercased form of some input row's
`reference` and `risk` cells whatever their input case; the output rows are
drawn from the already-normalized row list (normalization precedes the
threshold filtering); and re-applying the two allele-column normalizations
to the output changes nothing. -/
theorem parse_allele_normalization (df : DataFrame) (p m : Rat) (log : Bool)
    (out : DataFrame) (h : (parse_grs_file df p m log).2 = Except.ok out) :
    (∀ r ∈ out.rows, ∃ r0 ∈ df.rows,
        getCell out.headers r "reference" = Value.upper (getCell df.headers r0 "reference") ∧
          getCell out.headers r "risk" = Value.upper (getCell df.headers r0 "risk")) ∧
      out.rows.Sublist (normalizedRows df) ∧
      setColUpper out.headers "risk" (setColUpper out.headers "reference" out.rows) =
        out.rows := by
  obtain ⟨hh, hr⟩ := parse_ok_inv df p m log out h
  have hsub : out.rows.Sublist (normalizedRows df) := by
    rw [hr]
    by_cases hmaf : df.headers.contains "maf" = true
    · rw [if_pos hmaf]
      exact (List.filter_sublist _).trans (List.filter_sublist _)
    · rw [if_neg hmaf]
      exact List.filter_sublist _
  refine ⟨?_, hsub, ?_⟩
  · intro r hrm
    obtain ⟨r0, hr0, hfeq⟩ := (mem_normalizedRows df r).mp (hsub.subset hrm)
    refine ⟨r0, hr0, ?_, ?_⟩
    · rw [hh, ← hfeq, getCell_normRowFun_ref]
    · rw [hh, ← hfeq, getCell_normRowFun_risk]
  · rw [hh]
    have h1 : setColUpper (projCols df) "reference" out.rows = out.rows := by
      unfold setColUpper
      calc out.rows.map (rowSetUpper (projCols df) "reference")
          = out.rows.map id := List.map_congr_left (fun r hrm => by
              obtain ⟨r0, _, hfeq⟩ := (mem_normalizedRows df r).mp (hsub.subset hrm)
              rw [← hfeq, rowSetUpper_ref_fix]
              rfl)
        _ = out.rows := List.map_id _
    rw [h1]
    unfold setColUpper
    calc out.rows.map (rowSetUpper (projCols df) "risk")
        = out.rows.map id := List.map_congr_left (fun r hrm => by
            obtain ⟨r0, _, hfeq⟩ := (mem_normalizedRows df r).mp (hsub.subset hrm)
            rw [← hfeq, rowSetUpper_risk_fix]
            rfl)
      _ = out.rows := List.map_id _

theorem parse_allele_normalization_witness :
    (parse_grs_file sampleDF 1 0 false).2 = Except.ok sampleOut ∧
      setColUpper sampleOut.headers "risk"
          (setColUpper sampleOut.headers "reference" sampleOut.rows) = sampleOut.rows :=
  ⟨by decide,
   (parse_allele_normalization sampleDF 1 0 false sampleOut (by decide)).2.2⟩

/-- C8: the output is a stable filter of the normalized row list — it is a
sublist (order preserved, no reordering), and a normalized row that passes
the thresholds occurs in the output exactly as many times as it occurs in
the normalized input (duplicates kept, never deduplicated). -/
theorem parse_stable_filter (df : DataFrame) (p m : Rat) (log : Bool)
    (out : DataFrame) (h : (parse_grs_file df p m log).2 = Except.ok out) :
    out.rows.Sublist (normalizedRows df) ∧
      ∀ r ∈ normalizedRows df,
        (keepP (projCols df) p r &&
            (if df.headers.contains "maf" = true then keepMaf (projCols df) m r
              else true)) = true →
          out.rows.count r = (normalizedRows df).count r := by
  obtain ⟨hh, hr⟩ := parse_ok_inv df p m log out h
  refine ⟨?_, ?_⟩
  · rw [hr]
    by_cases hmaf : df.headers.contains "maf" = true
    · rw [if_pos hmaf]
      exact (List.filter_sublist _).trans (List.filter_sublist _)
    · rw [if_neg hmaf]
      exact List.filter_sublist _
  · intro r hmem hkeep
    rw [hr]
    by_cases hmaf : df.headers.contains "maf" = true
    · rw [if_pos hmaf]
      rw [if_pos hmaf] at hkeep
      obtain ⟨hp, hm2⟩ := Bool.and_eq_true_iff.mp hkeep
      rw [List.count_filter hm2, List.count_filter hp]
    · rw [if_neg hmaf]
      rw [if_neg hmaf] at hkeep
      have hp : keepP (projCols df) p r = true := by simpa using hkeep
      rw [List.count_filter hp]

theorem parse_stable_filter_witness :
    (parse_grs_file sampleDFDup 1 0 false).2 = Except.ok sampleDupOut ∧
      dupRow ∈ normalizedRows sampleDFDup ∧
      (keepP (projCols sampleDFDup) 1 dupRow &&
          (if sampleDFDup.headers.contains "maf" = true
            then keepMaf (projCols sampleDFDup) 0 dupRow else true)) = true ∧
      sampleDupOut.rows.count dupRow = (normalizedRows sampleDFDup).count dupRow :=
  ⟨by decide, by decide, by decide,
   (parse_stable_filter sampleDFDup 1 0 false sampleDupOut (by decide)).2 dupRow
     (by decide) (by decide)⟩
